import Mathlib

/-!
Shallow embedding of src/jogo.py, a two-player networked tic-tac-toe game.

Python values are modelled as follows: a board cell is `None`, `'X'` or
`'O'`, modelled by `Option Mark`; the board is the Python list of three
row lists, modelled by `List (List Cell)`; the return value of
`check_winner` (`None`, `'X'`, `'O'` or `'Draw'`) is modelled by
`Option WinnerVal`; Python list indexing with possibly negative indices
and `IndexError` is modelled by `pyGet`/`pySet` over `Except Unit`.
The mutable loop state of `main` (board, winner, is_my_turn, mark) is a
`GameState` record, extended with the list of move pairs handed to
`net.send` so the send behaviour is observable; the two mutation paths
of the main loop (the MOUSEBUTTONDOWN branch, lines 180-190, and the
network-receive branch, lines 192-199) become the pure step functions
`clickStep` and `recvStep`.
-/

set_option maxHeartbeats 1000000

namespace Jogo

/-- The two player symbols `'X'` and `'O'` of jogo.py. The host (server)
plays `'X'`, the joiner plays `'O'`. -/
inductive Mark
  | X
  | O
deriving DecidableEq, Repr, Fintype

/-- A board cell: Python `None` (empty) or a mark. -/
abbrev Cell := Option Mark

/-- The opponent mark, from line 195: `'X' if mark == 'O' else 'O'`. -/
def other : Mark → Mark
  | .X => .O
  | .O => .X

/-- The board of jogo.py line 148: a list of three lists of three cells. -/
abbrev Board := List (List Cell)

/-- Window geometry constant, line 11. -/
def WIDTH : Nat := 600

/-- Window geometry constant, line 11. -/
def HEIGHT : Nat := 600

/-- Build a 3x3 board from its nine cells in row-major order. -/
def mkBoard (a b c d e f g h i : Cell) : Board :=
  [[a, b, c], [d, e, f], [g, h, i]]

/-- The initial board of line 148: `[[None]*3 for _ in range(3)]`. -/
def emptyBoard : Board :=
  mkBoard none none none none none none none none none

/-- Read `board[r][c]` for in-range nonnegative indices (total, with the
empty default; the game only uses it where the indices are in range). -/
def getCell (b : Board) (r c : Nat) : Cell :=
  (b.getD r []).getD c none

/-- Write `board[r][c] = v` for nonnegative indices, rebuilding the row. -/
def setCell (b : Board) (r c : Nat) (v : Cell) : Board :=
  b.set r ((b.getD r []).set c v)

/-- The board really is 3x3 (always true of the board of `main`). -/
def wfBoard (b : Board) : Prop :=
  b.length = 3 ∧ ∀ row ∈ b, row.length = 3

/-- A non-`None` return value of `check_winner`: a winning mark or `'Draw'`. -/
inductive WinnerVal
  | mark (m : Mark)
  | draw
deriving DecidableEq, Repr

/-- The three columns, line 129: `[[board[r][c] for r in range(3)] for c in range(3)]`. -/
def colsOf (b : Board) : List (List Cell) :=
  (List.range 3).map fun c => (List.range 3).map fun r => getCell b r c

/-- The main diagonal, line 131: `[board[i][i] for i in range(3)]`. -/
def diag1 (b : Board) : List Cell :=
  (List.range 3).map fun i => getCell b i i

/-- The anti-diagonal, line 132: `[board[i][2-i] for i in range(3)]`. -/
def diag2 (b : Board) : List Cell :=
  (List.range 3).map fun i => getCell b i (2 - i)

/-- The list `lines` of `check_winner`, lines 127-134: the three rows,
then the three columns, then the two diagonals. -/
def linesOf (b : Board) : List (List Cell) :=
  b ++ colsOf b ++ [diag1 b, diag2 b]

/-- The per-line test of line 136: `if line[0] and line.count(line[0]) == 3:
return line[0]` — the first cell must be truthy (non-`None`) and occur
three times in the line. -/
def lineWin (line : List Cell) : Option Mark :=
  match line.head? with
  | some (some m) => if line.count (some m) = 3 then some m else none
  | _ => none

/-- `check_winner` of lines 126-140: scan the eight lines in order and
return the first winning mark; else `'Draw'` if every cell is truthy;
else `None` (game still in progress). -/
def check_winner (b : Board) : Option WinnerVal :=
  match (linesOf b).findSome? lineWin with
  | some m => some (.mark m)
  | none =>
    if b.all (fun row => row.all fun cell => cell.isSome) then some .draw
    else none

/-- The line test as the spec words it: a line is a win for mark M if all
three cells equal M. Spec-side definition, to be compared with `lineWin`. -/
def spec_lineWinner (line : List Cell) : Option Mark :=
  match line with
  | [some x, some y, some z] => if x = y ∧ y = z then some x else none
  | _ => none

/-- The outcome as the spec words it: the first winning line in row,
column, diagonal order decides the mark; else Draw when all nine cells
are non-Empty; else in progress (`none`). Spec-side definition, to be
compared with `check_winner`. -/
def spec_outcome (b : Board) : Option WinnerVal :=
  match (linesOf b).findSome? spec_lineWinner with
  | some m => some (.mark m)
  | none =>
    if ∀ row ∈ b, ∀ cell ∈ row, cell ≠ none then some .draw
    else none

/-- Normalize a Python list index for a list of length `n`: nonnegative
indices below `n` are used as is, indices in `[-n, -1]` count from the
end, anything else raises `IndexError` (here: `none`). -/
def pyIndex (n : Nat) (i : Int) : Option Nat :=
  if 0 ≤ i ∧ i < (n : Int) then some i.toNat
  else if -(n : Int) ≤ i ∧ i < 0 then some (i + n).toNat
  else none

/-- Python `l[i]` with `IndexError` as `Except.error`. -/
def pyGet {α : Type} (l : List α) (i : Int) : Except Unit α :=
  match pyIndex l.length i with
  | some k =>
    match l[k]? with
    | some v => Except.ok v
    | none => Except.error ()
  | none => Except.error ()

/-- Python `l[i] = v` with `IndexError` as `Except.error`. -/
def pySet {α : Type} (l : List α) (i : Int) (v : α) : Except Unit (List α) :=
  match pyIndex l.length i with
  | some k => Except.ok (l.set k v)
  | none => Except.error ()

/-- The loop state of `main` (lines 148-199): the board, the cached
`winner`, the turn flag, the local player's fixed mark, and (for
observing line 186, `net.send((row, col))`) the list of sent moves. -/
structure GameState where
  board : Board
  winner : Option WinnerVal
  is_my_turn : Bool
  mark : Mark
  sent : List (Nat × Nat)
deriving DecidableEq, Repr

/-- The state at the top of the loop, lines 148-163: empty board, no
winner, `is_my_turn = args.server`, `mark = 'X' if args.server else 'O'`. -/
def initState (server : Bool) : GameState :=
  { board := emptyBoard
    winner := none
    is_my_turn := server
    mark := if server then Mark.X else Mark.O
    sent := [] }

/-- The MOUSEBUTTONDOWN branch of the main loop, lines 180-190: when it
is the local turn and there is no winner, a click at window position
(x, y) below the status bar maps to the cell
(y // (HEIGHT//3), x // (WIDTH//3)); if that cell is empty the local
mark is placed, the pair is sent, the turn flips and the winner is
recomputed. `pygame.mouse.get_pos` always yields x < WIDTH and
y < HEIGHT + 50, so the total `getCell`/`setCell` never see an
out-of-range index here. -/
def clickStep (st : GameState) (x y : Nat) : GameState :=
  if st.is_my_turn = true ∧ st.winner = none then
    if y < HEIGHT then
      if getCell st.board (y / (HEIGHT / 3)) (x / (WIDTH / 3)) = none then
        let b := setCell st.board (y / (HEIGHT / 3)) (x / (WIDTH / 3)) (some st.mark)
        { st with
          board := b
          sent := st.sent ++ [(y / (HEIGHT / 3), x / (WIDTH / 3))]
          is_my_turn := false
          winner := check_winner b }
      else st
    else st
  else st

/-- Lines 194-197 once the guard has passed: `r, c = data;
board[r][c] = 'X' if mark == 'O' else 'O'; is_my_turn = True;
winner = check_winner(board)` — with genuine Python indexing, so an
invalid index is an uncaught `IndexError` (`Except.error`). -/
def recvApply (st : GameState) (r c : Int) : Except Unit GameState :=
  match pyGet st.board r with
  | .error e => .error e
  | .ok row =>
    match pySet row c (some (other st.mark)) with
    | .error e => .error e
    | .ok row' =>
      match pySet st.board r row' with
      | .error e => .error e
      | .ok b' =>
        .ok { st with board := b', is_my_turn := true, winner := check_winner b' }

/-- The network-receive branch of the main loop, lines 192-199:
`data = net.receive(timeout=0.01)` is `none` when nothing was queued; a
received move pair is a nonempty tuple, hence truthy, so the line-193
guard reduces to `not is_my_turn and winner is None`. -/
def recvStep (st : GameState) (data : Option (Int × Int)) : Except Unit GameState :=
  match data with
  | none => .ok st
  | some (r, c) =>
    if st.is_my_turn = false ∧ st.winner = none then recvApply st r c
    else .ok st

/-- Modelled from the spec: move serialization is Python's `pickle`
(stdlib, not part of src/). The spec requires only "a serialized
(row:int, col:int) pair per message, using any consistent
length-delimited or fixed-size binary encoding agreed by both peers".
We model the fixed-size frame pickle emits for a pair of small
nonnegative ints: a protocol header, a one-byte-int opcode per
coordinate, a pair opcode and a stop opcode. -/
def pickle_dumps (m : Nat × Nat) : List Nat :=
  [0x80, 4, 0x4B, m.1, 0x4B, m.2, 0x86, 0x2E]

/-- Modelled from the spec: the inverse side of the pickle frame above;
returns `none` (a deserialization error) on any other byte string. -/
def pickle_loads (bs : List Nat) : Option (Nat × Nat) :=
  match bs with
  | [0x80, 4, 0x4B, r, 0x4B, c, 0x86, 0x2E] =>
    if r < 256 ∧ c < 256 then some (r, c) else none
  | _ => none

/-- One event seen by `Network._receive_loop` (lines 70-83): either
`conn.recv` returned a byte string (possibly empty, the orderly close),
or it raised. -/
inductive RecvEvent
  | packet (bytes : List Nat)
  | err
deriving DecidableEq, Repr

/-- `Network._receive_loop` over a finite prefix of the incoming stream:
each nonempty packet that deserializes is enqueued in order; a
zero-length packet, a read error or a deserialization error breaks the
loop, after which nothing more is ever enqueued. -/
def receive_loop : List RecvEvent → List (Nat × Nat)
  | [] => []
  | .err :: _ => []
  | .packet bs :: rest =>
    match bs with
    | [] => []
    | _ =>
      match pickle_loads bs with
      | some mv => mv :: receive_loop rest
      | none => []

/-- The orchestrator state abstraction of the spec: GameOver when a
winner (or draw) is cached, otherwise MyTurn or OpponentTurn per the
turn flag. -/
inductive OrchState
  | myTurn
  | opponentTurn
  | gameOver
deriving DecidableEq, Repr

/-- Map a loop state onto the spec's orchestrator state machine. -/
def orchState (st : GameState) : OrchState :=
  if st.winner = none then
    if st.is_my_turn then .myTurn else .opponentTurn
  else .gameOver

/-- The mark owning the current turn: the local mark during the local
turn, the opponent mark otherwise. -/
def turnOwner (st : GameState) : Mark :=
  if st.is_my_turn then st.mark else other st.mark

/-- The guard under which the click branch actually applies a move. -/
def clickApplies (st : GameState) (x y : Nat) : Prop :=
  st.is_my_turn = true ∧ st.winner = none ∧ y < HEIGHT ∧
    getCell st.board (y / (HEIGHT / 3)) (x / (WIDTH / 3)) = none

/-- Project the board out of a possibly-failed step. -/
def boardAfter (e : Except Unit GameState) : Board :=
  match e with
  | .ok st => st.board
  | .error _ => []

end Jogo

namespace Jogo

/-! ### Helper lemmas about lists and the board accessors -/

theorem getD_set_ne {α : Type} :
    ∀ (l : List α) (i j : Nat) (v d : α), i ≠ j →
      (l.set i v).getD j d = l.getD j d := by
  intro l
  induction l with
  | nil => intro i j v d _; rfl
  | cons a t ih =>
    intro i j v d hij
    cases i with
    | zero =>
      cases j with
      | zero => exact absurd rfl hij
      | succ j => simp [List.getD_cons_succ]
    | succ i =>
      cases j with
      | zero => simp [List.set_cons_succ, List.getD_cons_zero]
      | succ j =>
        simp only [List.set_cons_succ, List.getD_cons_succ]
        exact ih i j v d (by omega)

theorem getD_set_self {α : Type} :
    ∀ (l : List α) (i : Nat) (v d : α), i < l.length →
      (l.set i v).getD i d = v := by
  intro l
  induction l with
  | nil => intro i v d h; simp at h
  | cons a t ih =>
    intro i v d h
    cases i with
    | zero => rfl
    | succ i =>
      simp only [List.set_cons_succ, List.getD_cons_succ]
      exact ih i v d (by simpa [List.length_cons] using h)

theorem getCell_setCell_ne (b : Board) (row col r c : Nat) (v : Cell)
    (h : r ≠ row ∨ c ≠ col) :
    getCell (setCell b row col v) r c = getCell b r c := by
  unfold getCell setCell
  by_cases hr : r = row
  · subst hr
    have hc : c ≠ col := by
      rcases h with h | h
      · exact absurd rfl h
      · exact h
    by_cases hlen : r < b.length
    · rw [getD_set_self _ _ _ _ hlen, getD_set_ne _ _ _ _ _ (fun he => hc he.symm)]
    · rw [List.set_eq_of_length_le (by omega)]
  · rw [getD_set_ne _ _ _ _ _ (fun he => hr he.symm)]

theorem getCell_setCell_self (b : Board) (row col : Nat) (v : Cell)
    (hr : row < b.length) (hc : col < (b.getD row []).length) :
    getCell (setCell b row col v) row col = v := by
  unfold getCell setCell
  rw [getD_set_self _ _ _ _ hr, getD_set_self _ _ _ _ hc]

theorem findSome?_congr {α β : Type} (f g : α → Option β) :
    ∀ l : List α, (∀ a ∈ l, f a = g a) → l.findSome? f = l.findSome? g := by
  intro l
  induction l with
  | nil => intro _; rfl
  | cons a t ih =>
    intro h
    rw [List.findSome?_cons, List.findSome?_cons, h a (List.mem_cons_self a t)]
    cases g a with
    | some b => rfl
    | none => exact ih fun x hx => h x (List.mem_cons_of_mem a hx)

theorem findSome?_mem {α β : Type} (f : α → Option β) :
    ∀ (l : List α) (b : β), l.findSome? f = some b → ∃ a ∈ l, f a = some b := by
  intro l
  induction l with
  | nil => intro b h; exact absurd h (by simp [List.findSome?_nil])
  | cons a t ih =>
    intro b h
    rw [List.findSome?_cons] at h
    cases hfa : f a with
    | some c =>
      rw [hfa] at h
      exact ⟨a, List.mem_cons_self a t, by rw [hfa]; exact h⟩
    | none =>
      rw [hfa] at h
      obtain ⟨x, hx, hfx⟩ := ih b h
      exact ⟨x, List.mem_cons_of_mem a hx, hfx⟩

theorem lineWin_eq_spec :
    ∀ x y z : Cell, lineWin [x, y, z] = spec_lineWinner [x, y, z] := by decide

theorem lineWin_triple_shape :
    ∀ (x y z : Cell) (m : Mark),
      lineWin [x, y, z] = some m → [x, y, z] = [some m, some m, some m] := by decide

theorem linesOf_mkBoard (a b c d e f g h i : Cell) :
    linesOf (mkBoard a b c d e f g h i) =
      [[a, b, c], [d, e, f], [g, h, i],
       [a, d, g], [b, e, h], [c, f, i],
       [a, e, i], [c, e, g]] := rfl

end Jogo

namespace Jogo

/-! ### Claim theorems -/

/-- C4: for every 3x3 board, `check_winner` agrees with the spec's
description of `check_outcome`: the first all-equal-to-a-mark line in
row, column, diagonal order decides `WonBy` (here `some (.mark m)`),
else `Draw` (`some .draw`) exactly when all nine cells are non-Empty,
else `InProgress` (`none`); moreover the empty board is in progress, a
board whose first row is all `'X'` is won by `'X'`, and a full board
with no three-in-a-line is a draw. -/
theorem c4_check_winner_matches_spec :
    (∀ a b c d e f g h i : Cell,
       check_winner (mkBoard a b c d e f g h i) =
         spec_outcome (mkBoard a b c d e f g h i)) ∧
    check_winner emptyBoard = none ∧
    check_winner (mkBoard (some .X) (some .X) (some .X)
      none none none none none none) = some (WinnerVal.mark .X) ∧
    check_winner (mkBoard (some .X) (some .O) (some .X)
      (some .X) (some .O) (some .O)
      (some .O) (some .X) (some .X)) = some WinnerVal.draw := by
  refine ⟨?_, rfl, rfl, rfl⟩
  intro a b c d e f g h i
  have hfs : (linesOf (mkBoard a b c d e f g h i)).findSome? lineWin
      = (linesOf (mkBoard a b c d e f g h i)).findSome? spec_lineWinner := by
    apply findSome?_congr
    intro line hline
    rw [linesOf_mkBoard] at hline
    simp only [List.mem_cons, List.not_mem_nil, or_false] at hline
    rcases hline with h1 | h1 | h1 | h1 | h1 | h1 | h1 | h1 <;> subst h1 <;>
      exact lineWin_eq_spec _ _ _
  unfold check_winner spec_outcome
  rw [hfs]
  cases hv : (linesOf (mkBoard a b c d e f g h i)).findSome? spec_lineWinner with
  | some m => rfl
  | none =>
    simp only [List.all_eq_true, Option.isSome_iff_ne_none]

end Jogo

namespace Jogo

/-- C10: `check_winner` never reports a win for the Empty value: whenever
it returns a winning mark, some line of the board has all three cells
equal to that (non-Empty) mark; and the line-win test rejects any line
whose first cell is Empty, so in particular an all-Empty line never
counts. -/
theorem c10_no_empty_line_win :
    (∀ a b c d e f g h i : Cell, ∀ m : Mark,
       check_winner (mkBoard a b c d e f g h i) = some (WinnerVal.mark m) →
       ∃ line ∈ linesOf (mkBoard a b c d e f g h i),
         line = [some m, some m, some m]) ∧
    (∀ line : List Cell, line.head? = some none → lineWin line = none) := by
  constructor
  · intro a b c d e f g h i m hw
    unfold check_winner at hw
    cases hfs : (linesOf (mkBoard a b c d e f g h i)).findSome? lineWin with
    | none =>
      rw [hfs] at hw
      dsimp only at hw
      split at hw <;> simp at hw
    | some m' =>
      rw [hfs] at hw
      dsimp only at hw
      have hm : m' = m := by
        injection hw with h1
        injection h1
      subst hm
      obtain ⟨line, hmem, hlw⟩ := findSome?_mem _ _ _ hfs
      refine ⟨line, hmem, ?_⟩
      rw [linesOf_mkBoard] at hmem
      simp only [List.mem_cons, List.not_mem_nil, or_false] at hmem
      rcases hmem with h1 | h1 | h1 | h1 | h1 | h1 | h1 | h1 <;> subst h1 <;>
        exact lineWin_triple_shape _ _ _ _ hlw
  · intro line hl
    unfold lineWin
    rw [hl]

/-- C10 witness: on the board whose first row is `['X','X','X']`,
`check_winner` reports a win for `'X'`, and the theorem produces the
fully marked winning line. -/
theorem c10_no_empty_line_win_witness :
    ∃ line ∈ linesOf (mkBoard (some .X) (some .X) (some .X)
      none none none none none none),
      line = [some Mark.X, some Mark.X, some Mark.X] :=
  c10_no_empty_line_win.1 (some .X) (some .X) (some .X)
    none none none none none none Mark.X rfl

/-- C8: serialization round-trips: for every move pair (r, c) with
r, c in [0,2], deserializing the bytes produced by serializing (r, c)
yields exactly (r, c). -/
theorem c8_serialize_round_trip :
    ∀ r c : Fin 3,
      pickle_loads (pickle_dumps (r.val, c.val)) = some (r.val, c.val) := by
  decide

/-- C3: the background receive loop does stop at a zero-length read and
enqueues nothing afterwards — but the claim's second half fails: the
code signals termination with `sys.exit(1)` from inside the
`ThreadPoolExecutor` worker (line 83), where the raised `SystemExit` is
captured by the worker's `Future` and never re-raised, so the main loop
keeps running; in particular a local click still mutates the board
afterwards, as the second conjunct shows on the post-close state (the
loop state carries no connection-loss flag at all). -/
theorem c3_receive_loop_stops :
    (∀ rest : List RecvEvent,
      receive_loop (RecvEvent.packet [] :: rest) = []) ∧
    getCell (clickStep (initState true) 0 0).board 0 0 = some Mark.X := by
  exact ⟨fun _ => rfl, by decide⟩

end Jogo

namespace Jogo

/-- C1 counterexample: the write-once invariant fails through the
network-receive path, in a state reachable in two operations. The host
starts, clicks cell (0,0) (placing `'X'` and passing the turn), and then
receives the move (0,0) from the peer: line 195 assigns
`board[0][0] = 'O'` with no emptiness check, overwriting the `'X'`. -/
theorem c1_counterexample :
    getCell (clickStep (initState true) 0 0).board 0 0 = some Mark.X ∧
    getCell (boardAfter (recvStep (clickStep (initState true) 0 0)
      (some (0, 0)))) 0 0 = some Mark.O := by
  decide

/-- C1 (amended): once non-Empty, a cell is never changed by the local
click path (line 184 refuses an occupied cell); the network-receive path
writes the received coordinates without checking the target cell, so a
received move naming an occupied cell overwrites it. -/
theorem c1_click_path_write_once :
    ∀ (st : GameState) (x y r c : Nat),
      getCell st.board r c ≠ none →
      getCell (clickStep st x y).board r c = getCell st.board r c := by
  intro st x y r c hne
  unfold clickStep
  by_cases h1 : st.is_my_turn = true ∧ st.winner = none
  · rw [if_pos h1]
    by_cases h2 : y < HEIGHT
    · rw [if_pos h2]
      by_cases h3 : getCell st.board (y / (HEIGHT / 3)) (x / (WIDTH / 3)) = none
      · rw [if_pos h3]
        show getCell (setCell st.board _ _ _) r c = getCell st.board r c
        by_cases hrow : r = y / (HEIGHT / 3)
        · by_cases hcol : c = x / (WIDTH / 3)
          · subst hrow; subst hcol; exact absurd h3 hne
          · exact getCell_setCell_ne _ _ _ _ _ _ (Or.inr hcol)
        · exact getCell_setCell_ne _ _ _ _ _ _ (Or.inl hrow)
      · rw [if_neg h3]
    · rw [if_neg h2]
  · rw [if_neg h1]

/-- C1 witness: after the host's opening click has put `'X'` at (0,0),
a further click anywhere leaves that occupied cell unchanged. -/
theorem c1_click_path_write_once_witness :
    getCell (clickStep (clickStep (initState true) 0 0) 0 0).board 0 0 =
      getCell (clickStep (initState true) 0 0).board 0 0 :=
  c1_click_path_write_once (clickStep (initState true) 0 0) 0 0 0 0 (by decide)

/-- C2 counterexample: a move received from the network with coordinates
outside [0,2] crashes: from the joiner's initial state, receiving (3,0)
evaluates `board[3][0]` and raises `IndexError` (modelled as
`Except.error`), which nothing in the main loop catches. -/
theorem c2_counterexample :
    recvStep (initState false) (some (3, 0)) = Except.error () := rfl

end Jogo

namespace Jogo

theorem click_row_bound (y : Nat) (h : y < HEIGHT) : y / (HEIGHT / 3) ≤ 2 := by
  have h6 : HEIGHT = 600 := rfl
  have h2 : (600 : Nat) / 3 = 200 := rfl
  rw [h6] at h ⊢
  rw [h2]
  omega

theorem click_col_bound (x : Nat) (h : x < WIDTH) : x / (WIDTH / 3) ≤ 2 := by
  have h6 : WIDTH = 600 := rfl
  have h2 : (600 : Nat) / 3 = 200 := rfl
  rw [h6] at h ⊢
  rw [h2]
  omega

theorem pyIndex_three_none (r : Int) (h : 3 ≤ r ∨ r < -3) :
    pyIndex 3 r = none := by
  unfold pyIndex
  rcases h with h | h
  · rw [if_neg (by omega), if_neg (by omega)]
  · rw [if_neg (by omega), if_neg (by omega)]

/-- C2 (amended): every move applied through the local click path does
satisfy the preconditions — the click mutates the state only when it is
the local turn, the game is in progress, the click is inside the board
area, the cell coordinates land in [0,2] (given the pygame guarantee
x < WIDTH), and the target cell is Empty. The network-receive path,
however, checks only turn and in-progress: a received move with a row
coordinate outside [-3,2] raises an uncaught IndexError (a crash), a
column coordinate outside [-3,2] likewise, and coordinates in [-3,-1]
mutate the board through Python's negative indexing, as receiving
(-1,-1) in the joiner's initial state writes the opponent mark into
cell (2,2). -/
theorem c2_move_validation :
    (∀ (st : GameState) (x y : Nat), x < WIDTH → clickStep st x y ≠ st →
       st.is_my_turn = true ∧ st.winner = none ∧ y < HEIGHT ∧
       y / (HEIGHT / 3) ≤ 2 ∧ x / (WIDTH / 3) ≤ 2 ∧
       getCell st.board (y / (HEIGHT / 3)) (x / (WIDTH / 3)) = none) ∧
    (∀ (st : GameState) (r c : Int), st.board.length = 3 →
       st.is_my_turn = false → st.winner = none → (3 ≤ r ∨ r < -3) →
       recvStep st (some (r, c)) = Except.error ()) ∧
    recvStep (initState false) (some (0, 5)) = Except.error () ∧
    (∃ st', recvStep (initState false) (some (-1, -1)) = Except.ok st' ∧
       getCell st'.board 2 2 = some Mark.X) := by
  refine ⟨?_, ?_, rfl, ⟨_, rfl, by decide⟩⟩
  · intro st x y hx hne
    unfold clickStep at hne
    by_cases h1 : st.is_my_turn = true ∧ st.winner = none
    · rw [if_pos h1] at hne
      by_cases h2 : y < HEIGHT
      · rw [if_pos h2] at hne
        by_cases h3 : getCell st.board (y / (HEIGHT / 3)) (x / (WIDTH / 3)) = none
        · exact ⟨h1.1, h1.2, h2, click_row_bound y h2, click_col_bound x hx, h3⟩
        · rw [if_neg h3] at hne
          exact absurd rfl hne
      · rw [if_neg h2] at hne
        exact absurd rfl hne
    · rw [if_neg h1] at hne
      exact absurd rfl hne
  · intro st r c hlen hturn hwin hr
    have hget : pyGet st.board r = Except.error () := by
      unfold pyGet
      rw [hlen, pyIndex_three_none r hr]
    show (if st.is_my_turn = false ∧ st.winner = none then recvApply st r c
      else Except.ok st) = Except.error ()
    rw [if_pos ⟨hturn, hwin⟩]
    unfold recvApply
    rw [hget]

/-- C2 witness: the host's opening click at the window origin is a
validated move (all preconditions hold), and the joiner receiving the
out-of-range row 5 crashes with an IndexError. -/
theorem c2_move_validation_witness :
    ((initState true).is_my_turn = true ∧ (initState true).winner = none ∧
      (0 : Nat) < HEIGHT ∧ (0 : Nat) / (HEIGHT / 3) ≤ 2 ∧
      (0 : Nat) / (WIDTH / 3) ≤ 2 ∧
      getCell (initState true).board (0 / (HEIGHT / 3)) (0 / (WIDTH / 3)) = none) ∧
    recvStep (initState false) (some (5, 0)) = Except.error () :=
  ⟨c2_move_validation.1 (initState true) 0 0 (by decide) (by decide),
   c2_move_validation.2.1 (initState false) 5 0 rfl rfl rfl (Or.inl (by decide))⟩

end Jogo

namespace Jogo

theorem other_other : ∀ m : Mark, other (other m) = m := by
  intro m; cases m <;> rfl

/-- C5: the turn owner strictly alternates starting with the host's
mark. The host starts in its own turn holding `'X'` and the joiner
starts waiting (so the initial owner is `'X'`, the host's mark, on both
sides); a locally applied click flips the turn flag to `False`, and a
successfully applied received move flips it to `True`, each flip sending
the owner to the other mark. -/
theorem c5_turn_alternation :
    (∀ s : Bool, (initState s).mark = (if s then Mark.X else Mark.O) ∧
       (initState s).is_my_turn = s ∧ turnOwner (initState s) = Mark.X) ∧
    (∀ (st : GameState) (x y : Nat), clickApplies st x y →
       (clickStep st x y).is_my_turn = false ∧
       turnOwner (clickStep st x y) = other (turnOwner st)) ∧
    (∀ (st : GameState) (r c : Int) (st' : GameState),
       st.is_my_turn = false → st.winner = none →
       recvStep st (some (r, c)) = Except.ok st' →
       st'.is_my_turn = true ∧ turnOwner st' = other (turnOwner st)) := by
  refine ⟨?_, ?_, ?_⟩
  · intro s
    cases s <;> exact ⟨rfl, rfl, rfl⟩
  · rintro st x y ⟨h1, h2, h3, h4⟩
    have hstep : clickStep st x y = { st with
        board := setCell st.board (y / (HEIGHT / 3)) (x / (WIDTH / 3)) (some st.mark)
        sent := st.sent ++ [(y / (HEIGHT / 3), x / (WIDTH / 3))]
        is_my_turn := false
        winner := check_winner (setCell st.board (y / (HEIGHT / 3))
          (x / (WIDTH / 3)) (some st.mark)) } := by
      unfold clickStep
      rw [if_pos ⟨h1, h2⟩, if_pos h3, if_pos h4]
    rw [hstep]
    exact ⟨rfl, by simp [turnOwner, h1]⟩
  · intro st r c st' hturn hwin hok
    have hr : recvApply st r c = Except.ok st' := by
      have heq : recvStep st (some (r, c)) = recvApply st r c := by
        show (if st.is_my_turn = false ∧ st.winner = none then recvApply st r c
          else Except.ok st) = recvApply st r c
        rw [if_pos ⟨hturn, hwin⟩]
      rw [heq] at hok
      exact hok
    unfold recvApply at hr
    cases hg : pyGet st.board r with
    | error e => rw [hg] at hr; dsimp only at hr; cases hr
    | ok row =>
      rw [hg] at hr
      dsimp only at hr
      cases hs1 : pySet row c (some (other st.mark)) with
      | error e => rw [hs1] at hr; dsimp only at hr; cases hr
      | ok row' =>
        rw [hs1] at hr
        dsimp only at hr
        cases hs2 : pySet st.board r row' with
        | error e => rw [hs2] at hr; dsimp only at hr; cases hr
        | ok b' =>
          rw [hs2] at hr
          dsimp only at hr
          have hst : st' = { st with
              board := b'
              is_my_turn := true
              winner := check_winner b' } := by
            injection hr with h
            exact h.symm
          subst hst
          exact ⟨rfl, by simp [turnOwner, hturn, other_other]⟩

/-- C5 witness: the host's opening click leaves the host waiting and
moves the owner from `'X'` to `'O'`. -/
theorem c5_turn_alternation_witness :
    (clickStep (initState true) 0 0).is_my_turn = false ∧
    turnOwner (clickStep (initState true) 0 0) =
      other (turnOwner (initState true)) :=
  c5_turn_alternation.2.1 (initState true) 0 0 ⟨rfl, rfl, by decide, rfl⟩

/-- C6: game over is absorbing: in any state whose cached outcome is
terminal (`winner` is not `None`), a mouse click changes nothing (the
guard on line 180 fails) and a received move is ignored (the guard on
line 193 fails), so neither the board nor the outcome ever changes
again. -/
theorem c6_game_over_absorbing :
    ∀ st : GameState, st.winner ≠ none →
      (∀ x y : Nat, clickStep st x y = st) ∧
      (∀ d : Option (Int × Int), recvStep st d = Except.ok st) := by
  intro st h
  constructor
  · intro x y
    unfold clickStep
    rw [if_neg (fun hc => h hc.2)]
  · intro d
    cases d with
    | none => rfl
    | some p =>
      cases p with
      | mk r c =>
        show (if st.is_my_turn = false ∧ st.winner = none then recvApply st r c
          else Except.ok st) = Except.ok st
        rw [if_neg (fun hc => h hc.2)]

/-- C6 witness: in a drawn terminal state a click and a received move
both leave the state untouched. -/
theorem c6_game_over_absorbing_witness :
    clickStep { board := emptyBoard, winner := some WinnerVal.draw, is_my_turn := true, mark := Mark.X, sent := [] } 0 0 =
      { board := emptyBoard, winner := some WinnerVal.draw, is_my_turn := true, mark := Mark.X, sent := [] } ∧
    recvStep { board := emptyBoard, winner := some WinnerVal.draw, is_my_turn := false, mark := Mark.O, sent := [] } (some (1, 1)) =
      Except.ok { board := emptyBoard, winner := some WinnerVal.draw, is_my_turn := false, mark := Mark.O, sent := [] } :=
  ⟨(c6_game_over_absorbing _ (by decide)).1 0 0,
   (c6_game_over_absorbing _ (by decide)).2 (some (1, 1))⟩

end Jogo

namespace Jogo

/-- C7: a legal local move at window position (x, y) during the local
turn appends exactly the applied pair (row, col) = (y // (HEIGHT//3),
x // (WIDTH//3)) to the transport sends (line 186), places the local
mark at that very cell, and moves the orchestrator to OpponentTurn — or
to GameOver when the recomputed outcome is terminal. -/
theorem c7_local_move_send_and_flip :
    ∀ (st : GameState) (x y : Nat), x < WIDTH → wfBoard st.board →
      clickApplies st x y →
      (clickStep st x y).sent =
        st.sent ++ [(y / (HEIGHT / 3), x / (WIDTH / 3))] ∧
      getCell (clickStep st x y).board (y / (HEIGHT / 3)) (x / (WIDTH / 3)) =
        some st.mark ∧
      ((clickStep st x y).winner = none →
        orchState (clickStep st x y) = OrchState.opponentTurn) ∧
      ((clickStep st x y).winner ≠ none →
        orchState (clickStep st x y) = OrchState.gameOver) := by
  rintro st x y hx ⟨hlen, hrows⟩ ⟨h1, h2, h3, h4⟩
  have hstep : clickStep st x y = { st with
      board := setCell st.board (y / (HEIGHT / 3)) (x / (WIDTH / 3)) (some st.mark)
      sent := st.sent ++ [(y / (HEIGHT / 3), x / (WIDTH / 3))]
      is_my_turn := false
      winner := check_winner (setCell st.board (y / (HEIGHT / 3))
        (x / (WIDTH / 3)) (some st.mark)) } := by
    unfold clickStep
    rw [if_pos ⟨h1, h2⟩, if_pos h3, if_pos h4]
  rw [hstep]
  have hrlt : y / (HEIGHT / 3) < st.board.length := by
    have := click_row_bound y h3
    omega
  have hmem : st.board.getD (y / (HEIGHT / 3)) [] ∈ st.board := by
    rw [List.getD_eq_getElem st.board [] hrlt]
    exact List.getElem_mem hrlt
  have hclt : x / (WIDTH / 3) < (st.board.getD (y / (HEIGHT / 3)) []).length := by
    rw [hrows _ hmem]
    have := click_col_bound x hx
    omega
  refine ⟨rfl, getCell_setCell_self _ _ _ _ hrlt hclt, ?_, ?_⟩
  · intro hw
    unfold orchState
    rw [if_pos hw]
    rfl
  · intro hw
    unfold orchState
    rw [if_neg hw]

/-- C7 witness: the host's opening click at the window origin sends the
pair (0, 0), marks cell (0, 0) with `'X'`, and moves the orchestrator to
OpponentTurn since one mark cannot end the game. -/
theorem c7_local_move_send_and_flip_witness :
    (clickStep (initState true) 0 0).sent =
      (initState true).sent ++ [(0 / (HEIGHT / 3), 0 / (WIDTH / 3))] ∧
    getCell (clickStep (initState true) 0 0).board (0 / (HEIGHT / 3))
      (0 / (WIDTH / 3)) = some (initState true).mark ∧
    ((clickStep (initState true) 0 0).winner = none →
      orchState (clickStep (initState true) 0 0) = OrchState.opponentTurn) ∧
    ((clickStep (initState true) 0 0).winner ≠ none →
      orchState (clickStep (initState true) 0 0) = OrchState.gameOver) :=
  c7_local_move_send_and_flip (initState true) 0 0 (by decide)
    ⟨rfl, by decide⟩ ⟨rfl, rfl, by decide, rfl⟩

/-- C9: the local click path never indexes the board out of bounds: a
click in the status bar (y at or below the board area, i.e.
y >= HEIGHT) is ignored outright, and any click inside the window
(x < WIDTH, y < HEIGHT) maps to a cell with row and col in [0,2]. -/
theorem c9_click_geometry :
    ∀ (st : GameState) (x y : Nat),
      (HEIGHT ≤ y → clickStep st x y = st) ∧
      (x < WIDTH → y < HEIGHT →
        y / (HEIGHT / 3) ≤ 2 ∧ x / (WIDTH / 3) ≤ 2) := by
  intro st x y
  constructor
  · intro hy
    unfold clickStep
    by_cases h1 : st.is_my_turn = true ∧ st.winner = none
    · rw [if_pos h1, if_neg (by omega)]
    · rw [if_neg h1]
  · intro hx hy
    exact ⟨click_row_bound y hy, click_col_bound x hx⟩

/-- C9 witness: a click at the status-bar height 600 is ignored in the
host's initial state, and the in-window position (5, 7) maps into the
cell grid. -/
theorem c9_click_geometry_witness :
    clickStep (initState true) 0 600 = initState true ∧
    ((7 : Nat) / (HEIGHT / 3) ≤ 2 ∧ (5 : Nat) / (WIDTH / 3) ≤ 2) :=
  ⟨(c9_click_geometry (initState true) 0 600).1 (by decide),
   (c9_click_geometry (initState true) 5 7).2 (by decide) (by decide)⟩

end Jogo
